import Mathlib

/-
Verification of the benchmark orchestration and result-normalization engine
(run_benchmark.py, run_benchmark_commandbuffer.py, run_benchmark_linux.py).

The Python sources are shallowly embedded: regular-expression scraping is
modelled by an explicit pattern-atom matcher (the patterns used by the code
are simple enough that greedy matching is exact), Python floats are modelled
as rationals, dicts as association lists in insertion order, the filesystem
(os.path.exists / os.path.isdir) and subprocess execution as oracles passed
to the driver functions.
-/

namespace Benchmark

/-! ## Character classes (Python `re` classes restricted to latin-1 text) -/

/-- Python regex whitespace class over the latin-1 range
(space, tab, newline, carriage return, vertical tab, form feed,
file/group/record/unit separators, next line, no-break space). -/
def isPySpace (c : Char) : Bool :=
  c = ' ' || c = '\t' || c = '\n' || c = '\r' ||
  c = (Char.ofNat 0x0b) || c = (Char.ofNat 0x0c) ||
  (0x1c ≤ c.toNat && c.toNat ≤ 0x1f) || c = (Char.ofNat 0x85) || c = (Char.ofNat 0xa0)

/-- Character class corresponding to the regex class of digits and dot. -/
def isNumChar (c : Char) : Bool := c.isDigit || c = '.'

/-- Character class corresponding to the regex class of digits, dot and comma. -/
def isNumCommaChar (c : Char) : Bool := c.isDigit || c = '.' || c = ','

/-- GREEK SMALL LETTER MU, the character appearing in the source regex
alternation of parse_exe_output. -/
def muGreek : Char := Char.ofNat 0x3bc

/-- MICRO SIGN, the character appearing in run_benchmark_linux.py patterns
and in the canonical metric label of the spec. -/
def muMicro : Char := Char.ofNat 0xb5

/-! ## A tiny matcher for the pattern shapes the code uses

Every regex in the sources is a sequence of: a literal, a whitespace run
(star or plus), a single greedy captured character-class run, or a final
alternation of literals.  For these shapes greedy matching without
backtracking is exact, because in every pattern the first character of the
atom following a star/class run can never be consumed by that run. -/

inductive Atom where
  | lit (s : List Char)
  | sp (required : Bool)
  | grp (cls : Char → Bool)
  | alt (alts : List (List Char))

/-- Longest prefix of the input satisfying a predicate, and the rest. -/
def munch (p : Char → Bool) : List Char → List Char × List Char
  | [] => ([], [])
  | c :: t =>
      if p c then
        let r := munch p t
        (c :: r.1, r.2)
      else ([], c :: t)

/-- Match a literal at the front of the input, returning the rest. -/
def dropLit (l cs : List Char) : Option (List Char) :=
  if l.isPrefixOf cs then some (cs.drop l.length) else none

/-- Match a pattern (list of atoms) at the front of the input, returning
the text captured by the single group on success. -/
def matchAtoms : List Atom → List Char → Option (List Char)
  | [], _ => some []
  | .lit l :: rest, cs => (dropLit l cs).bind (matchAtoms rest)
  | .sp required :: rest, cs =>
      let r := munch isPySpace cs
      if required && r.1.isEmpty then none else matchAtoms rest r.2
  | .grp cls :: rest, cs =>
      let r := munch cls cs
      if r.1.isEmpty then none else (matchAtoms rest r.2).map (fun _ => r.1)
  | .alt alts :: rest, cs =>
      match alts.find? (fun a => a.isPrefixOf cs) with
      | none => none
      | some a => matchAtoms rest (cs.drop a.length)

/-- re.search without MULTILINE: try the pattern at every position, leftmost
first, returning the captured group of the first full match. -/
def scanAll (p : List Atom) : List Char → Option (List Char)
  | [] => matchAtoms p []
  | c :: t =>
      match matchAtoms p (c :: t) with
      | some g => some g
      | none => scanAll p t

/-- re.search with MULTILINE for a pattern anchored by a caret: try the
pattern at every line-start position (start of text or right after a
newline), leftmost first. -/
def scanLines (p : List Atom) (atStart : Bool) : List Char → Option (List Char)
  | [] => if atStart then matchAtoms p [] else none
  | c :: t =>
      match (if atStart then matchAtoms p (c :: t) else none) with
      | some g => some g
      | none => scanLines p (c = '\n') t

/-- re.search for a pattern anchored at the start of the given text
(the position immediately after a slice counts as a line start). -/
def scanLineStart (p : List Atom) (cs : List Char) : Option (List Char) :=
  scanLines p true cs

/-- Leftmost occurrence of a literal; returns the text after it
(modelling output_text[trace_match.end():]). -/
def findAfter (l : List Char) : List Char → Option (List Char)
  | [] => if l.isEmpty then some [] else none
  | c :: t =>
      if l.isPrefixOf (c :: t) then some ((c :: t).drop l.length)
      else findAfter l t

/-! ## Python float() on the captured strings, modelled over ℚ -/

def natOfDigits (cs : List Char) : Nat :=
  cs.foldl (fun a c => 10 * a + (c.toNat - 48)) 0

/-- float() applied to a string drawn from the digits/dot class: defined
exactly when the string has at least one digit and at most one dot;
raises ValueError (modelled as none) otherwise. -/
def pyFloatQ (cs : List Char) : Option ℚ :=
  if cs.all isNumChar ∧ cs.countP (fun c => c = '.') ≤ 1 ∧ cs.any Char.isDigit then
    let ip := cs.takeWhile (fun c => c ≠ '.')
    let fp := (cs.dropWhile (fun c => c ≠ '.')).drop 1
    some ((natOfDigits ip : ℚ) + (natOfDigits fp : ℚ) / (10 : ℚ) ^ fp.length)
  else none

/-- value_str.replace with the comma removed everywhere. -/
def stripCommas (cs : List Char) : List Char := cs.filter (fun c => c ≠ ',')

/-- Message text of the ValueError raised by float() on a bad string
(modelled; the row only ever stores it opaquely). -/
def floatErrMsg (g : List Char) : String :=
  "could not convert string to float: " ++ String.mk g

/-! ## The shared metric-extraction loop

Each parse function iterates a rule list in order; for each rule it
searches the text, converts the captured string with float() (which may
raise, aborting the whole parse), and stores the value in the dict in
insertion order.  keyOf/valOf express the per-rule renaming and unit
conversion the code applies, preOf the thousands-separator stripping. -/

def foldRules (keyOf : String → String) (valOf : String → ℚ → ℚ)
    (preOf : List Char → List Char)
    (scan : List Atom → List Char → Option (List Char)) :
    List (String × List Atom) → List Char → Except String (List (String × ℚ))
  | [], _ => .ok []
  | (n, pat) :: rest, t =>
      match scan pat t with
      | none => foldRules keyOf valOf preOf scan rest t
      | some g =>
          match pyFloatQ (preOf g) with
          | none => .error (floatErrMsg (preOf g))
          | some v =>
              (foldRules keyOf valOf preOf scan rest t).map
                (fun l => (keyOf n, valOf n v) :: l)

/-! ## parse_exe_output (run_benchmark.py lines 77-117;
identical in run_benchmark_commandbuffer.py lines 71-104) -/

/-- simple_metrics of parse_exe_output: (canonical name, pattern). -/
def exeSimpleRules : List (String × List Atom) :=
  [ ("SimulationTime_s",
      [.lit "Simulation time".data, .sp false, .lit [':'], .sp false,
       .grp isNumChar, .sp false, .lit ['s']]),
    ("StepsPerSecond",
      [.lit "Steps per second".data, .sp false, .lit [':'], .sp false,
       .grp isNumChar]),
    ("RealtimeFactor",
      [.lit "Realtime factor".data, .sp false, .lit [':'], .sp false,
       .grp isNumChar, .sp false, .lit ['x']]),
    ("TimePerStep_us",
      [.lit "Time per step".data, .sp false, .lit [':'], .sp false,
       .grp isNumChar, .sp false, .alt [['?', 's'], [muGreek, 's'], ['u', 's']]]),
    ("CG_iters_per_step",
      [.lit "CG iters / step".data, .sp false, .lit [':'], .sp false,
       .grp isNumChar]),
    ("Contacts_per_step",
      [.lit "Contacts / step".data, .sp false, .lit [':'], .sp false,
       .grp isNumChar]),
    ("Constraints_per_step",
      [.lit "Constraints / step".data, .sp false, .lit [':'], .sp false,
       .grp isNumChar]),
    ("DOF",
      [.lit "Degrees of freedom".data, .sp false, .lit [':'], .sp false,
       .grp isNumChar]) ]

/-- profiler_keys of parse_exe_output. -/
def exeProfilerKeys : List String :=
  ["step", "forward", "position", "velocity", "actuation",
   "constraint", "advance", "other", "position total",
   "kinematics", "inertia", "collision", "broadphase",
   "narrowphase", "make", "project"]

/-- CSV column name of a profiler key (spaces replaced by underscores). -/
def profCsvName (key : String) : String :=
  "Profiler_" ++ String.mk (key.data.map (fun c => if c = ' ' then '_' else c)) ++ "_us"

/-- Multiline pattern for one profiler key of parse_exe_output. -/
def exeProfPat (key : String) : List Atom :=
  [.sp false, .lit key.data, .sp false, .lit [':'], .sp false,
   .grp isNumChar, .sp false, .lit ['(']]

def exeProfRules : List (String × List Atom) :=
  exeProfilerKeys.map (fun k => (profCsvName k, exeProfPat k))

/-- parse_exe_output: scalar metrics in order, then profiler metrics in
order; an error is a ValueError escaping from float(). -/
def parse_exe_output (t : String) : Except String (List (String × ℚ)) :=
  match foldRules (fun n => n) (fun _ v => v) (fun g => g) scanAll
      exeSimpleRules t.data with
  | .error e => .error e
  | .ok a =>
      match foldRules (fun n => n) (fun _ v => v) (fun g => g) scanLineStart
          exeProfRules t.data with
      | .error e => .error e
      | .ok b => .ok (a ++ b)

/-! ## parse_warp_output (run_benchmark.py lines 119-178;
identical in run_benchmark_commandbuffer.py lines 107-151) -/

def warpSimpleRules : List (String × List Atom) :=
  [ ("SimulationTime_s",
      [.lit "Total simulation time".data, .sp false, .lit [':'], .sp false,
       .grp isNumChar, .sp false, .lit ['s']]),
    ("StepsPerSecond",
      [.lit "Total steps per second".data, .sp false, .lit [':'], .sp false,
       .grp isNumCommaChar]),
    ("RealtimeFactor",
      [.lit "Total realtime factor".data, .sp false, .lit [':'], .sp false,
       .grp isNumCommaChar, .sp false, .lit ['x']]),
    ("TimePerStep_ns",
      [.lit "Total time per step".data, .sp false, .lit [':'], .sp false,
       .grp isNumChar, .sp false, .lit ['n', 's']]) ]

/-- Key renaming of parse_warp_output: TimePerStep_ns is stored under
the microseconds column. -/
def wkey (n : String) : String :=
  if n = "TimePerStep_ns" then "TimePerStep_us" else n

/-- Value conversion of parse_warp_output: nanoseconds divided by 1000. -/
def wval (n : String) (v : ℚ) : ℚ :=
  if n = "TimePerStep_ns" then v / 1000 else v

/-- profiler_map of parse_warp_output: (warp key, standard CSV column). -/
def warpProfilerMap : List (String × String) :=
  [("step", "Profiler_step_us"),
   ("forward", "Profiler_forward_us"),
   ("fwd_position", "Profiler_position_us"),
   ("fwd_velocity", "Profiler_velocity_us"),
   ("fwd_actuation", "Profiler_actuation_us"),
   ("solve", "Profiler_constraint_us"),
   ("euler", "Profiler_advance_us"),
   ("collision", "Profiler_collision_us"),
   ("nxn_broadphase", "Profiler_broadphase_us"),
   ("make_constraint", "Profiler_make_us"),
   ("primitive_narrowphase", "Profiler_narrowphase_us")]

/-- Multiline pattern for one warp profiler key. -/
def warpProfPat (key : String) : List Atom :=
  [.sp false, .lit key.data, .sp false, .lit [':'], .sp false, .grp isNumChar]

def warpProfRules : List (String × List Atom) :=
  warpProfilerMap.map (fun p => (p.2, warpProfPat p.1))

/-- parse_warp_output: scalar metrics with thousands separators stripped
and ns converted to us, then, if the Event trace marker is present,
profiler metrics from the text after the marker, each divided by 1000. -/
def parse_warp_output (t : String) : Except String (List (String × ℚ)) :=
  match foldRules wkey wval stripCommas scanAll warpSimpleRules t.data with
  | .error e => .error e
  | .ok a =>
      match findAfter ("Event trace:".data) t.data with
      | none => .ok a
      | some rest =>
          match foldRules (fun n => n) (fun _ v => v / 1000) (fun g => g)
              scanLineStart warpProfRules rest with
          | .error e => .error e
          | .ok b => .ok (a ++ b)

/-! ## Rows, execution outcomes, run_command_and_parse -/

/-- A CSV cell value: parsed metrics are floats, context counts are ints,
everything else (names, error kinds, diagnostics) strings. -/
inductive Value where
  | num (q : ℚ)
  | str (s : String)
  | int (z : ℤ)
deriving DecidableEq, Repr

/-- Result of one subprocess.run call: normal completion with return code
and captured streams, timeout (subprocess.TimeoutExpired), or any other
exception raised during execution. -/
inductive ExecOutcome where
  | completed (returncode : ℤ) (stdout stderr : String)
  | timedOut
  | raised (msg : String)
deriving DecidableEq, Repr

/-- Python dict assignment d[k] = v on an insertion-ordered dict:
overwrite in place if the key exists, else append. -/
def setKey (l : List (String × α)) (k : String) (v : α) : List (String × α) :=
  if l.any (fun p => p.1 = k) then l.map (fun p => if p.1 = k then (k, v) else p)
  else l ++ [(k, v)]

/-- Python dict lookup (first, and only, occurrence of the key). -/
def getVal : List (String × α) → String → Option α
  | [], _ => none
  | p :: t, key => if p.1 = key then some p.2 else getVal t key

/-- Command adjustment of run_command_and_parse: on a non-Windows platform
a PowerShell invocation is rewritten to pwsh. -/
def effectiveCommand (isPowershell platformWin : Bool) (command : List String) :
    List String :=
  if isPowershell && !platformWin then "pwsh" :: command.drop 1 else command

/-- The try-block body of run_command_and_parse, given the outcome of the
subprocess.run call: classify and parse (run_benchmark.py lines 219-249;
run_benchmark_commandbuffer.py lines 178-198 is identical in effect). -/
def classifyAndParse (oc : ExecOutcome) (parserType : String) :
    List (String × Value) :=
  match oc with
  | .timedOut => [("error", .str "Timeout")]
  | .raised m => [("error", .str m)]
  | .completed rc out err =>
      if rc ≠ 0 then [("error", .str "ReturnCode_NonZero"), ("stderr", .str err)]
      else
        match (if parserType = "warp" then parse_warp_output out
               else parse_exe_output out) with
        | .error m => [("error", .str m)]
        | .ok [] => [("error", .str "Parsing_Failed"), ("stdout", .str out)]
        | .ok parsed => parsed.map (fun p => (p.1, Value.num p.2))

/-- run_command_and_parse of run_benchmark.py, with subprocess execution
abstracted as an oracle from the argument vector to an outcome.  The
engine/model log strings are kept for fidelity; they only feed prints. -/
def run_command_and_parse (runner : List String → ExecOutcome)
    (command : List String) (engineName modelId : String)
    (isPowershell : Bool) (parserType : String) (platformWin : Bool) :
    List (String × Value) :=
  let _ := engineName
  let _ := modelId
  classifyAndParse (runner (effectiveCommand isPowershell platformWin command)) parserType

/-! ## Configuration of run_benchmark.py -/

def DEFAULT_STEPS : ℕ := 1000
def DEFAULT_WORLDS : ℕ := 1

structure ExeConfig where
  engineName : String
  modelType : String
  exePath : String
  modelBasePath : String

def EXE_TEST_CONFIGS : List ExeConfig :=
  [ ⟨"mujoco", "dense",
      "D:\\Learn\\CLion\\original\\mujoco\\cmake-build-release\\bin\\testspeed.exe",
      "D:\\Learn\\CLion\\original\\humanoid"⟩,
    ⟨"mujoco", "sparse",
      "D:\\Learn\\CLion\\original\\mujoco\\cmake-build-release\\bin\\testspeed.exe",
      "D:\\Learn\\CLion\\original\\humanoid\\sparse"⟩,
    ⟨"cuda_mujoco", "default",
      "D:\\Learn\\CLion\\cuda_mujoco\\cmake-build-release\\bin\\testspeed.exe",
      "D:\\Learn\\CLion\\original\\humanoid"⟩ ]

def WARP_MODEL_BASE_PATH : String := "benchmark/humanoid"

structure WarpConfig where
  rootPath : String
  envScript : String
  command : String

def warpEngineName : String := "mujoco_warp"

def warpEngineConfig : WarpConfig :=
  ⟨"D:\\Learn\\CLion\\original\\mujoco_warp", ".\\env\\Scripts\\Activate.ps1",
   "mjwarp-testspeed"⟩

def MODEL_SCALING_LIST : List (ℕ × String) :=
  [(1, "humanoid.xml"), (8, "8_humanoids.xml"), (22, "22_humanoids.xml"),
   (50, "50_humanoids.xml"), (100, "100_humanoids.xml"), (200, "200_humanoids.xml")]

def NWORLD_SCALING_LIST : List ℕ := [1, 4, 16, 64, 256]

def NWORLD_WARP_BASE_MODEL : String := "humanoid.xml"

def CUDA_NWORLD_MODEL_BASE_PATH : String :=
  "D:\\Learn\\CLion\\original\\humanoid\\n_humanoid"

/-- os.path.join with the separator of the platform the script runs on. -/
def pathJoin (platformWin : Bool) (a b : String) : String :=
  a ++ (if platformWin then "\\" else "/") ++ b

/-- The str.replace turning backslashes into slashes in warp model paths. -/
def slashify (s : String) : String :=
  String.mk (s.data.map (fun c => if c = '\\' then '/' else c))

/-- The PowerShell command string built for a warp invocation
(gap is the literal spacing between the nstep and nworld flags, which
differs between the loops of run_benchmark.py). -/
def psCommandString (cfg : WarpConfig) (modelPath : String)
    (nstep nworld : ℕ) (gap : String) : String :=
  "& \x7b " ++ "Set-Location '" ++ cfg.rootPath ++ "'; " ++
  "& '" ++ cfg.envScript ++ "'; " ++
  cfg.command ++ " " ++ modelPath ++ " --event_trace=True --nstep=" ++
  toString nstep ++ gap ++ "--nworld=" ++ toString nworld ++ " \x7d"

/-- Model file resolution for the cuda_mujoco WorldScaling sweep
(run_benchmark.py lines 443-446; run_benchmark_commandbuffer.py line 414). -/
def cuda_nworld_model_file (count : ℕ) : String :=
  if count = 1 then "humanoid.xml" else toString count ++ "_humanoid.xml"

/-! ## The driver loop of run_benchmark.py main

The filesystem is abstracted as two oracles (os.path.exists, os.path.isdir)
and subprocess execution as a runner oracle. -/

/-- The six context assignments appended to every row of run_benchmark.py
(TestCategory, Engine, ModelType, Humanoids, Worlds, ModelFile, in
assignment order). -/
def addContext (row : List (String × Value)) (cat engine mtype : String)
    (humanoids worlds : ℤ) (mfile : String) : List (String × Value) :=
  setKey (setKey (setKey (setKey (setKey (setKey row
    "TestCategory" (.str cat)) "Engine" (.str engine)) "ModelType" (.str mtype))
    "Humanoids" (.int humanoids)) "Worlds" (.int worlds)) "ModelFile" (.str mfile)

/-- One ModelScaling row of an exe engine (run_benchmark.py lines 276-307). -/
def exeScenarioRow (runner : List String → ExecOutcome) (platformWin : Bool)
    (cfg : ExeConfig) (humanoidCount : ℕ) (modelFile : String) :
    List (String × Value) :=
  let modelPath := pathJoin platformWin cfg.modelBasePath modelFile
  let command := [cfg.exePath, modelPath, toString DEFAULT_STEPS]
  addContext
    (run_command_and_parse runner command
      (cfg.engineName ++ " (" ++ cfg.modelType ++ ")")
      (modelFile ++ " (" ++ toString humanoidCount ++ "a)") false "exe" platformWin)
    "ModelScaling" cfg.engineName cfg.modelType (humanoidCount : ℤ) 1 modelFile

/-- One ModelScaling row of the warp engine (run_benchmark.py lines 328-360). -/
def warpScenarioRow (runner : List String → ExecOutcome) (platformWin : Bool)
    (humanoidCount : ℕ) (modelFile : String) : List (String × Value) :=
  let modelPath := slashify (WARP_MODEL_BASE_PATH ++ "/" ++ modelFile)
  let command := ["powershell", "-Command",
    psCommandString warpEngineConfig modelPath DEFAULT_STEPS DEFAULT_WORLDS "  "]
  addContext
    (run_command_and_parse runner command warpEngineName
      (modelFile ++ " (" ++ toString humanoidCount ++ "a, " ++
        toString DEFAULT_WORLDS ++ "w)") true "warp" platformWin)
    "ModelScaling" warpEngineName "default" (humanoidCount : ℤ) (DEFAULT_WORLDS : ℤ)
    modelFile

/-- One WorldScaling row of the warp engine (run_benchmark.py lines 381-412). -/
def warpNworldScenarioRow (runner : List String → ExecOutcome) (platformWin : Bool)
    (nworld : ℕ) : List (String × Value) :=
  let modelFile := NWORLD_WARP_BASE_MODEL
  let modelPath := slashify (WARP_MODEL_BASE_PATH ++ "/" ++ modelFile)
  let command := ["powershell", "-Command",
    psCommandString warpEngineConfig modelPath DEFAULT_STEPS nworld " "]
  addContext
    (run_command_and_parse runner command warpEngineName
      (modelFile ++ " (1a, " ++ toString nworld ++ "w)") true "warp" platformWin)
    "WorldScaling" warpEngineName "nworld_scaling" 1 (nworld : ℤ) modelFile

/-- One WorldScaling row of the cuda engine (run_benchmark.py lines 441-477). -/
def cudaNworldScenarioRow (runner : List String → ExecOutcome) (platformWin : Bool)
    (cfg : ExeConfig) (count : ℕ) : List (String × Value) :=
  let modelFile := cuda_nworld_model_file count
  let modelPath := pathJoin platformWin CUDA_NWORLD_MODEL_BASE_PATH modelFile
  let command := [cfg.exePath, modelPath, toString DEFAULT_STEPS]
  addContext
    (run_command_and_parse runner command
      (cfg.engineName ++ " (nworld_equivalent)")
      (modelFile ++ " (" ++ toString count ++ "a)") false "exe" platformWin)
    "WorldScaling" cfg.engineName "nworld_equivalent" (count : ℤ) (count : ℤ) modelFile

/-- Pre-flight check of the warp engine (root exists, is a directory,
activation script exists). -/
def warpPreflight (fs isdir : String → Bool) (platformWin : Bool) : Bool :=
  fs warpEngineConfig.rootPath && isdir warpEngineConfig.rootPath &&
  fs (pathJoin platformWin warpEngineConfig.rootPath warpEngineConfig.envScript)

/-- Loop 1 of main: exe engines, ModelScaling. -/
def rbLoop1 (fs : String → Bool) (runner : List String → ExecOutcome)
    (platformWin : Bool) : List (List (String × Value)) :=
  EXE_TEST_CONFIGS.flatMap (fun cfg =>
    if fs cfg.exePath then
      MODEL_SCALING_LIST.flatMap (fun p =>
        if fs (pathJoin platformWin cfg.modelBasePath p.2) then
          [exeScenarioRow runner platformWin cfg p.1 p.2]
        else [])
    else [])

/-- Loop 2 of main: warp engine, ModelScaling (model files unchecked). -/
def rbLoop2 (fs isdir : String → Bool) (runner : List String → ExecOutcome)
    (platformWin : Bool) : List (List (String × Value)) :=
  if warpPreflight fs isdir platformWin then
    MODEL_SCALING_LIST.map (fun p => warpScenarioRow runner platformWin p.1 p.2)
  else []

/-- Loop 3 of main: warp engine, WorldScaling. -/
def rbLoop3 (fs isdir : String → Bool) (runner : List String → ExecOutcome)
    (platformWin : Bool) : List (List (String × Value)) :=
  if warpPreflight fs isdir platformWin then
    NWORLD_SCALING_LIST.map (fun n => warpNworldScenarioRow runner platformWin n)
  else []

/-- The cuda_mujoco entry found in EXE_TEST_CONFIGS (the loop in main
takes the first matching config; it is the third entry). -/
def cudaConfig : ExeConfig := EXE_TEST_CONFIGS.get ⟨2, by decide⟩

/-- Loop 4 of main: cuda engine, WorldScaling. -/
def rbLoop4 (fs isdir : String → Bool) (runner : List String → ExecOutcome)
    (platformWin : Bool) : List (List (String × Value)) :=
  if fs cudaConfig.exePath &&
     (fs CUDA_NWORLD_MODEL_BASE_PATH && isdir CUDA_NWORLD_MODEL_BASE_PATH) then
    NWORLD_SCALING_LIST.flatMap (fun n =>
      if fs (pathJoin platformWin CUDA_NWORLD_MODEL_BASE_PATH
              (cuda_nworld_model_file n)) then
        [cudaNworldScenarioRow runner platformWin cudaConfig n]
      else [])
  else []

/-- The results list accumulated by run_benchmark.py main over its four
driver loops, in order. -/
def mainResults (fs isdir : String → Bool) (runner : List String → ExecOutcome)
    (platformWin : Bool) : List (List (String × Value)) :=
  rbLoop1 fs runner platformWin ++ rbLoop2 fs isdir runner platformWin ++
  rbLoop3 fs isdir runner platformWin ++ rbLoop4 fs isdir runner platformWin

/-- The number of enabled (engine, scenario) pairs the parameter matrix
enumerates for a given filesystem state: the same pre-flight and
per-model existence conditions that gate the loops, counted without
running anything. -/
def scenarioCount (fs isdir : String → Bool) (platformWin : Bool) : ℕ :=
  (EXE_TEST_CONFIGS.map (fun cfg =>
    if fs cfg.exePath then
      MODEL_SCALING_LIST.countP (fun p => fs (pathJoin platformWin cfg.modelBasePath p.2))
    else 0)).sum +
  (if warpPreflight fs isdir platformWin then MODEL_SCALING_LIST.length else 0) +
  (if warpPreflight fs isdir platformWin then NWORLD_SCALING_LIST.length else 0) +
  (if fs cudaConfig.exePath &&
      (fs CUDA_NWORLD_MODEL_BASE_PATH && isdir CUDA_NWORLD_MODEL_BASE_PATH) then
    NWORLD_SCALING_LIST.countP (fun n =>
      fs (pathJoin platformWin CUDA_NWORLD_MODEL_BASE_PATH (cuda_nworld_model_file n)))
  else 0)

/-! ## The driver loop of run_benchmark_commandbuffer.py main

This variant adds the CUDA launch-queue scale axis: before each batch of
cuda_mujoco scenarios it assigns os.environ["CUDA_SCALE_LAUNCH_QUEUES"].
The process environment is modelled as an explicit Option String state
(the value of that variable) threaded through the loops; every
subprocess.run call inherits the state current at call time, so the
runner oracle receives it, and every invocation is recorded in a trace
together with the environment it observed. -/

def CUDA_LAUNCH_QUEUE_SCALES : List String := ["1x", "4x"]

/-- One recorded subprocess invocation: the effective argument vector,
the parser dialect, the engine name passed to run_command_and_parse, and
the value of CUDA_SCALE_LAUNCH_QUEUES in the inherited environment. -/
structure Invocation where
  command : List String
  parserType : String
  engineName : String
  env : Option String
deriving DecidableEq, Repr

/-- run_command_and_parse of run_benchmark_commandbuffer.py: same
classification as run_benchmark.py, but the subprocess inherits the
current process environment, and the call is recorded. -/
def cbRun (runner : List String → Option String → ExecOutcome)
    (env : Option String) (command : List String) (engineName modelId : String)
    (isPowershell : Bool) (parserType : String) (platformWin : Bool) :
    List (String × Value) × Invocation :=
  let _ := modelId
  let cmd := effectiveCommand isPowershell platformWin command
  (classifyAndParse (runner cmd env) parserType, ⟨cmd, parserType, engineName, env⟩)

/-- The seven context assignments of run_benchmark_commandbuffer.py
(the six of run_benchmark.py plus CudaLaunchQueueScale). -/
def addContextCB (row : List (String × Value)) (cat engine mtype : String)
    (humanoids worlds : ℤ) (mfile scale : String) : List (String × Value) :=
  setKey (addContext row cat engine mtype humanoids worlds mfile)
    "CudaLaunchQueueScale" (.str scale)

/-- One exe-engine ModelScaling scenario of the commandbuffer variant. -/
def cbExeScenario (runner : List String → Option String → ExecOutcome)
    (platformWin : Bool) (env : Option String) (cfg : ExeConfig)
    (humanoidCount : ℕ) (modelFile scale modelId : String) :
    List (String × Value) × Invocation :=
  let modelPath := pathJoin platformWin cfg.modelBasePath modelFile
  let r := cbRun runner env [cfg.exePath, modelPath, toString DEFAULT_STEPS]
    (cfg.engineName ++ " (" ++ cfg.modelType ++ ")") modelId false "exe" platformWin
  (addContextCB r.1 "ModelScaling" cfg.engineName cfg.modelType
    (humanoidCount : ℤ) 1 modelFile scale, r.2)

/-- One warp ModelScaling scenario of the commandbuffer variant. -/
def cbWarpScenario (runner : List String → Option String → ExecOutcome)
    (platformWin : Bool) (env : Option String) (humanoidCount : ℕ)
    (modelFile : String) : List (String × Value) × Invocation :=
  let modelPath := slashify (WARP_MODEL_BASE_PATH ++ "/" ++ modelFile)
  let command := ["powershell", "-Command",
    psCommandString warpEngineConfig modelPath DEFAULT_STEPS DEFAULT_WORLDS " "]
  let r := cbRun runner env command warpEngineName
    (modelFile ++ " (" ++ toString humanoidCount ++ "a, " ++
      toString DEFAULT_WORLDS ++ "w)") true "warp" platformWin
  (addContextCB r.1 "ModelScaling" warpEngineName "default"
    (humanoidCount : ℤ) (DEFAULT_WORLDS : ℤ) modelFile "N/A", r.2)

/-- One warp WorldScaling scenario of the commandbuffer variant. -/
def cbWarpNworldScenario (runner : List String → Option String → ExecOutcome)
    (platformWin : Bool) (env : Option String) (nworld : ℕ) :
    List (String × Value) × Invocation :=
  let modelFile := NWORLD_WARP_BASE_MODEL
  let modelPath := slashify (WARP_MODEL_BASE_PATH ++ "/" ++ modelFile)
  let command := ["powershell", "-Command",
    psCommandString warpEngineConfig modelPath DEFAULT_STEPS nworld " "]
  let r := cbRun runner env command warpEngineName
    (modelFile ++ " (1a, " ++ toString nworld ++ "w)") true "warp" platformWin
  (addContextCB r.1 "WorldScaling" warpEngineName "nworld_scaling"
    1 (nworld : ℤ) modelFile "N/A", r.2)

/-- One cuda WorldScaling scenario of the commandbuffer variant. -/
def cbCudaNworldScenario (runner : List String → Option String → ExecOutcome)
    (platformWin : Bool) (env : Option String) (count : ℕ) (scale : String) :
    List (String × Value) × Invocation :=
  let modelFile := cuda_nworld_model_file count
  let modelPath := pathJoin platformWin CUDA_NWORLD_MODEL_BASE_PATH modelFile
  let r := cbRun runner env [cudaConfig.exePath, modelPath, toString DEFAULT_STEPS]
    "cuda_mujoco"
    (modelFile ++ " (" ++ toString count ++ "a, scale=" ++ scale ++ ")")
    false "exe" platformWin
  (addContextCB r.1 "WorldScaling" "cuda_mujoco" "nworld_equivalent"
    (count : ℤ) (count : ℤ) modelFile scale, r.2)

/-- Loop 1 of the commandbuffer main: for the cuda engine it iterates the
scale list, assigning the environment variable before each batch; for the
other engines it runs once under whatever environment is current. -/
def cbLoop1 (fs : String → Bool) (runner : List String → Option String → ExecOutcome)
    (platformWin : Bool) (env0 : Option String) :
    Option String × List (List (String × Value) × Invocation) :=
  EXE_TEST_CONFIGS.foldl (fun acc cfg =>
    if fs cfg.exePath then
      if cfg.engineName = "cuda_mujoco" then
        CUDA_LAUNCH_QUEUE_SCALES.foldl (fun acc2 scale =>
          let batch := MODEL_SCALING_LIST.flatMap (fun p =>
            if fs (pathJoin platformWin cfg.modelBasePath p.2) then
              [cbExeScenario runner platformWin (some scale) cfg p.1 p.2 scale
                (p.2 ++ " (" ++ toString p.1 ++ "a, scale=" ++ scale ++ ")")]
            else [])
          (some scale, acc2.2 ++ batch)) acc
      else
        (acc.1, acc.2 ++ MODEL_SCALING_LIST.flatMap (fun p =>
          if fs (pathJoin platformWin cfg.modelBasePath p.2) then
            [cbExeScenario runner platformWin acc.1 cfg p.1 p.2 "N/A"
              (p.2 ++ " (" ++ toString p.1 ++ "a)")]
          else []))
    else acc) (env0, [])

/-- Pre-flight check of the warp engine in the commandbuffer variant
(no isdir check there, unlike run_benchmark.py). -/
def cbWarpOk (fs : String → Bool) (platformWin : Bool) : Bool :=
  fs warpEngineConfig.rootPath &&
  fs (pathJoin platformWin warpEngineConfig.rootPath warpEngineConfig.envScript)

/-- Loop 2 of the commandbuffer main: warp, ModelScaling. -/
def cbLoop2 (fs : String → Bool) (runner : List String → Option String → ExecOutcome)
    (platformWin : Bool) (env : Option String) :
    List (List (String × Value) × Invocation) :=
  if cbWarpOk fs platformWin then
    MODEL_SCALING_LIST.map (fun p => cbWarpScenario runner platformWin env p.1 p.2)
  else []

/-- Loop 3 of the commandbuffer main: warp, WorldScaling. -/
def cbLoop3 (fs : String → Bool) (runner : List String → Option String → ExecOutcome)
    (platformWin : Bool) (env : Option String) :
    List (List (String × Value) × Invocation) :=
  if cbWarpOk fs platformWin then
    NWORLD_SCALING_LIST.map (fun n => cbWarpNworldScenario runner platformWin env n)
  else []

/-- Loop 4 of the commandbuffer main: cuda, WorldScaling, iterating the
scale list and assigning the environment variable before each batch
(no isdir check on the model base path in this variant). -/
def cbLoop4 (fs : String → Bool) (runner : List String → Option String → ExecOutcome)
    (platformWin : Bool) (env0 : Option String) :
    Option String × List (List (String × Value) × Invocation) :=
  if fs cudaConfig.exePath && fs CUDA_NWORLD_MODEL_BASE_PATH then
    CUDA_LAUNCH_QUEUE_SCALES.foldl (fun acc scale =>
      let batch := NWORLD_SCALING_LIST.flatMap (fun n =>
        if fs (pathJoin platformWin CUDA_NWORLD_MODEL_BASE_PATH
                (cuda_nworld_model_file n)) then
          [cbCudaNworldScenario runner platformWin (some scale) n scale]
        else [])
      (some scale, acc.2 ++ batch)) (env0, [])
  else (env0, [])

/-- The commandbuffer main: its four loops in order, threading the
process-environment state; returns each scenario row paired with the
recorded invocation. -/
def cbMain (fs : String → Bool) (runner : List String → Option String → ExecOutcome)
    (platformWin : Bool) (env0 : Option String) :
    List (List (String × Value) × Invocation) :=
  let s1 := cbLoop1 fs runner platformWin env0
  s1.2 ++ cbLoop2 fs runner platformWin s1.1 ++
  cbLoop3 fs runner platformWin s1.1 ++
  (cbLoop4 fs runner platformWin s1.1).2

/-- The invocation trace of one commandbuffer run. -/
def cbTrace (fs : String → Bool) (runner : List String → Option String → ExecOutcome)
    (platformWin : Bool) (env0 : Option String) : List Invocation :=
  (cbMain fs runner platformWin env0).map (fun p => p.2)

/-- A filesystem oracle on which every pre-flight and model check passes. -/
def fsAll : String → Bool := fun _ => true

/-- A trivial runner: every command completes immediately with empty
output. -/
def runnerTrivial : List String → Option String → ExecOutcome :=
  fun _ _ => .completed 0 "" ""

/-! ## parse_output (run_benchmark_linux.py lines 58-108)

This variant pre-populates its result dict with the four canonical keys
mapped to None, then fills in whatever matches; values are therefore
Option-valued. -/

def timePerStepUsKeyLinux : String := "Time per Step (" ++ String.mk [muMicro] ++ "s)"

/-- The dict literal initialising data in parse_output. -/
def linuxInitData : List (String × Option ℚ) :=
  [("Simulation Time (s)", none), ("SPS", none), ("RTF", none),
   (timePerStepUsKeyLinux, none)]

/-- The per-engine pattern dict of parse_output (note the plus-quantified
whitespace in this file, and the colon belonging to the label in the
mjx/mujoco_warp dialects). -/
def linuxPatterns (engine : String) : List (String × List Atom) :=
  if engine = "mujoco" then
    [ ("Simulation Time (s)",
        [.lit "Simulation time".data, .sp true, .lit [':'], .sp true,
         .grp isNumChar, .sp true, .lit ['s']]),
      ("SPS",
        [.lit "Steps per second".data, .sp true, .lit [':'], .sp true,
         .grp isNumChar]),
      ("RTF",
        [.lit "Realtime factor".data, .sp true, .lit [':'], .sp true,
         .grp isNumChar, .sp true, .lit ['x']]),
      (timePerStepUsKeyLinux,
        [.lit "Time per step".data, .sp true, .lit [':'], .sp true,
         .grp isNumChar, .sp true, .lit [muMicro, 's']]) ]
  else if engine = "mjx" then
    [ ("Simulation Time (s)",
        [.lit "Total simulation time:".data, .sp true,
         .grp isNumChar, .sp true, .lit ['s']]),
      ("SPS",
        [.lit "Total steps per second:".data, .sp true, .grp isNumChar]),
      ("RTF",
        [.lit "Total realtime factor:".data, .sp true,
         .grp isNumChar, .sp true, .lit ['x']]),
      (timePerStepUsKeyLinux,
        [.lit "Total time per step:".data, .sp true,
         .grp isNumChar, .sp true, .lit [muMicro, 's']]) ]
  else if engine = "mujoco_warp" then
    [ ("Simulation Time (s)",
        [.lit "Total simulation time:".data, .sp true,
         .grp isNumChar, .sp true, .lit ['s']]),
      ("SPS",
        [.lit "Total steps per second:".data, .sp true, .grp isNumChar]),
      ("RTF",
        [.lit "Total realtime factor:".data, .sp true,
         .grp isNumChar, .sp true, .lit ['x']]),
      ("Time per Step (ns)",
        [.lit "Total time per step:".data, .sp true,
         .grp isNumChar, .sp true, .lit ['n', 's']]) ]
  else if engine = "cuda_mujoco" then
    [ ("Simulation Time (s)",
        [.lit "Total wall time".data, .sp true, .lit [':'], .sp true,
         .grp isNumChar, .sp true, .lit ['s']]),
      ("SPS",
        [.lit "Steps per second".data, .sp true, .lit [':'], .sp true,
         .grp isNumChar]),
      ("RTF",
        [.lit "Realtime factor".data, .sp true, .lit [':'], .sp true,
         .grp isNumChar, .sp true, .lit ['x']]),
      (timePerStepUsKeyLinux,
        [.lit "Time per step".data, .sp true, .lit [':'], .sp true,
         .grp isNumChar, .sp true, .lit [muMicro, 's']]) ]
  else []

/-- The pattern loop of parse_output: each match is converted with
float() (which may raise) and stored; a nanosecond match is stored under
the microseconds key divided by 1000. -/
def linuxGo : List (String × List Atom) → List (String × Option ℚ) → List Char →
    Except String (List (String × Option ℚ))
  | [], data, _ => .ok data
  | (key, pat) :: rest, data, t =>
      match scanAll pat t with
      | none => linuxGo rest data t
      | some g =>
          match pyFloatQ g with
          | none => .error (floatErrMsg g)
          | some v =>
              linuxGo rest
                (if key = "Time per Step (ns)" then
                  setKey data timePerStepUsKeyLinux (some (v / 1000))
                 else setKey data key (some v)) t

/-- parse_output of run_benchmark_linux.py. -/
def parse_output (engine : String) (t : String) :
    Except String (List (String × Option ℚ)) :=
  linuxGo (linuxPatterns engine) linuxInitData t.data

/-! ## Helper lemmas -/

lemma length_flatMap_sum {α β : Type} (l : List α) (f : α → List β) :
    (l.flatMap f).length = (l.map (fun x => (f x).length)).sum := by
  induction l with
  | nil => rfl
  | cons a t ih => simp [List.flatMap_cons, ih]

lemma length_flatMap_ite {α β : Type} (l : List α) (q : α → Bool) (r : α → β) :
    (l.flatMap (fun x => if q x then [r x] else [])).length = l.countP q := by
  induction l with
  | nil => rfl
  | cons a t ih =>
      by_cases h : q a <;> simp [List.flatMap_cons, h, ih, List.countP_cons]

lemma getVal_eq_none {α : Type} :
    ∀ (l : List (String × α)) (k : String), k ∉ l.map Prod.fst → getVal l k = none
  | [], _, _ => rfl
  | p :: t, k, h => by
      simp only [List.map_cons, List.mem_cons, not_or] at h
      rw [getVal, if_neg (fun e => h.1 e.symm)]
      exact getVal_eq_none t k h.2

lemma getVal_append {α : Type} :
    ∀ (a b : List (String × α)) (k : String),
      getVal (a ++ b) k = ((getVal a k).rec (getVal b k) (fun v => some v))
  | [], b, k => rfl
  | p :: t, b, k => by
      by_cases h : p.1 = k <;> simp [getVal, h, getVal_append t b k]

lemma getVal_map_num :
    ∀ (r : List (String × ℚ)) (k : String),
      getVal (r.map (fun p => (p.1, Value.num p.2))) k = (getVal r k).map Value.num
  | [], _ => rfl
  | p :: t, k => by
      by_cases h : p.1 = k <;> simp [getVal, h, getVal_map_num t k]

lemma getVal_overwrite_ne {α : Type} (k k' : String) (v : α) (h : k' ≠ k) :
    ∀ (t : List (String × α)),
      getVal (t.map (fun p => if p.1 = k then (k, v) else p)) k' = getVal t k'
  | [] => rfl
  | p :: t => by
      by_cases hp : p.1 = k
      · have h1 : ¬ k = k' := fun e => h e.symm
        have h2 : ¬ p.1 = k' := fun e => h1 (hp.symm.trans e)
        simp [getVal, hp, h1, h2, getVal_overwrite_ne k k' v h t]
      · by_cases hk : p.1 = k' <;>
          simp [getVal, hp, hk, h, getVal_overwrite_ne k k' v h t]

lemma getVal_append_single_ne {α : Type} (k k' : String) (v : α) (h : k' ≠ k) :
    ∀ (l : List (String × α)), getVal (l ++ [(k, v)]) k' = getVal l k'
  | [] => by
      have h1 : ¬ k = k' := fun e => h e.symm
      simp [getVal, h1]
  | p :: t => by
      by_cases hk : p.1 = k' <;>
        simp [getVal, hk, getVal_append_single_ne k k' v h t]

lemma getVal_setKey_ne {α : Type} (l : List (String × α)) (k k' : String) (v : α)
    (h : k' ≠ k) : getVal (setKey l k v) k' = getVal l k' := by
  rw [setKey]
  split
  · exact getVal_overwrite_ne k k' v h l
  · exact getVal_append_single_ne k k' v h l

lemma setKey_map_fst {α : Type} (l : List (String × α)) (k : String) (v : α)
    (h : k ∈ l.map Prod.fst) : (setKey l k v).map Prod.fst = l.map Prod.fst := by
  have hany : l.any (fun p => p.1 = k) = true := by
    rw [List.any_eq_true]
    obtain ⟨p, hp, he⟩ := List.mem_map.mp h
    exact ⟨p, hp, by simp [he]⟩
  rw [setKey, if_pos hany, List.map_map]
  apply List.map_congr_left
  intro p _
  by_cases hp : p.1 = k <;> simp [hp]

lemma foldRules_ok_keys (K : String → String) (V : String → ℚ → ℚ)
    (P : List Char → List Char) (S : List Atom → List Char → Option (List Char)) :
    ∀ (rules : List (String × List Atom)) (t : List Char) (l : List (String × ℚ)),
      foldRules K V P S rules t = .ok l →
      l.map Prod.fst = (rules.filter (fun ρ => (S ρ.2 t).isSome)).map (fun ρ => K ρ.1)
  | [], t, l, h => by
      simp only [foldRules] at h
      cases h
      rfl
  | (n, pat) :: rest, t, l, h => by
      rw [foldRules] at h
      cases hs : S pat t with
      | none =>
          simp only [hs] at h
          have ih := foldRules_ok_keys K V P S rest t l h
          simp [List.filter_cons, hs, ih]
      | some g =>
          simp only [hs] at h
          cases hf : pyFloatQ (P g) with
          | none =>
              simp only [hf] at h
              exact Except.noConfusion h
          | some v =>
              simp only [hf] at h
              cases hr : foldRules K V P S rest t with
              | error e =>
                  rw [hr] at h
                  exact Except.noConfusion h
              | ok l' =>
                  rw [hr] at h
                  simp only [Except.map] at h
                  cases h
                  have ih := foldRules_ok_keys K V P S rest t l' hr
                  simp [List.filter_cons, hs, ih]

lemma foldRules_ok_lookup (K : String → String) (V : String → ℚ → ℚ)
    (P : List Char → List Char) (S : List Atom → List Char → Option (List Char)) :
    ∀ (rules : List (String × List Atom)) (t : List Char) (l : List (String × ℚ)),
      foldRules K V P S rules t = .ok l →
      (rules.map (fun ρ => K ρ.1)).Nodup →
      ∀ n pat, (n, pat) ∈ rules →
        getVal l (K n) = (S pat t).bind (fun g => (pyFloatQ (P g)).map (V n))
  | [], _, _, _, _, _, _, hmem => absurd hmem (List.not_mem_nil _)
  | (m, q) :: rest, t, l, h, hnd, n, pat, hmem => by
      rw [foldRules] at h
      rw [List.map_cons, List.nodup_cons] at hnd
      rcases List.mem_cons.mp hmem with heq | hrest
      · injection heq with h1 h2
        subst h1
        subst h2
        cases hs : S pat t with
        | none =>
            simp only [hs] at h
            have hkeys := foldRules_ok_keys K V P S rest t l h
            have hnot : K n ∉ l.map Prod.fst := by
              rw [hkeys]
              intro hc
              obtain ⟨ρ, hρ, he⟩ := List.mem_map.mp hc
              exact hnd.1 (he ▸ List.mem_map_of_mem (fun ρ => K ρ.1)
                (List.mem_of_mem_filter hρ))
            simp [getVal_eq_none l (K n) hnot]
        | some g =>
            simp only [hs] at h
            cases hf : pyFloatQ (P g) with
            | none =>
                simp only [hf] at h
                exact Except.noConfusion h
            | some v =>
                simp only [hf] at h
                cases hr : foldRules K V P S rest t with
                | error e =>
                    rw [hr] at h
                    exact Except.noConfusion h
                | ok l' =>
                    rw [hr] at h
                    simp only [Except.map] at h
                    cases h
                    simp [getVal, hf]
      · have hKne : K m ≠ K n := by
          intro e
          exact hnd.1 (e ▸ List.mem_map_of_mem (fun ρ => K ρ.1) hrest)
        cases hs : S q t with
        | none =>
            simp only [hs] at h
            exact foldRules_ok_lookup K V P S rest t l h hnd.2 n pat hrest
        | some g =>
            simp only [hs] at h
            cases hf : pyFloatQ (P g) with
            | none =>
                simp only [hf] at h
                exact Except.noConfusion h
            | some v =>
                simp only [hf] at h
                cases hr : foldRules K V P S rest t with
                | error e =>
                    rw [hr] at h
                    exact Except.noConfusion h
                | ok l' =>
                    rw [hr] at h
                    simp only [Except.map] at h
                    cases h
                    rw [getVal, if_neg hKne]
                    exact foldRules_ok_lookup K V P S rest t l' hr hnd.2 n pat hrest

lemma linuxGo_keys :
    ∀ (rules : List (String × List Atom)) (data : List (String × Option ℚ))
      (t : List Char) (l : List (String × Option ℚ)),
      linuxGo rules data t = .ok l →
      (∀ ρ ∈ rules,
        (if ρ.1 = "Time per Step (ns)" then timePerStepUsKeyLinux else ρ.1) ∈
          data.map Prod.fst) →
      l.map Prod.fst = data.map Prod.fst
  | [], data, t, l, h, _ => by
      simp only [linuxGo] at h
      cases h
      rfl
  | (key, pat) :: rest, data, t, l, h, hin => by
      rw [linuxGo] at h
      cases hs : scanAll pat t with
      | none =>
          simp only [hs] at h
          exact linuxGo_keys rest data t l h (fun ρ hρ => hin ρ (List.mem_cons_of_mem _ hρ))
      | some g =>
          simp only [hs] at h
          cases hf : pyFloatQ g with
          | none =>
              simp only [hf] at h
              exact Except.noConfusion h
          | some v =>
              simp only [hf] at h
              have hhead := hin (key, pat) (List.mem_cons_self _ _)
              by_cases hk : key = "Time per Step (ns)"
              · rw [if_pos hk] at h
                have hfst := setKey_map_fst data timePerStepUsKeyLinux (some (v / 1000))
                  (by simpa [hk] using hhead)
                have hres := linuxGo_keys rest _ t l h
                  (fun ρ hρ => by rw [hfst]; exact hin ρ (List.mem_cons_of_mem _ hρ))
                rw [hres, hfst]
              · rw [if_neg hk] at h
                have hfst := setKey_map_fst data key (some v) (by simpa [hk] using hhead)
                have hres := linuxGo_keys rest _ t l h
                  (fun ρ hρ => by rw [hfst]; exact hin ρ (List.mem_cons_of_mem _ hρ))
                rw [hres, hfst]

lemma sum_map_length_ite {α β : Type} (l : List α) (q : α → Bool) (r : α → β) :
    (l.map (List.length ∘ fun x => if q x then [r x] else [])).sum = l.countP q := by
  induction l with
  | nil => rfl
  | cons a t ih => by_cases h : q a <;> simp [h, ih, List.countP_cons, Nat.add_comm]

lemma rbLoop1_length (fs : String → Bool) (runner : List String → ExecOutcome)
    (win : Bool) :
    (rbLoop1 fs runner win).length =
      (EXE_TEST_CONFIGS.map (fun cfg =>
        if fs cfg.exePath then
          MODEL_SCALING_LIST.countP (fun p => fs (pathJoin win cfg.modelBasePath p.2))
        else 0)).sum := by
  rw [rbLoop1, length_flatMap_sum]
  apply congrArg List.sum
  apply List.map_congr_left
  intro cfg _
  by_cases h : fs cfg.exePath
  · rw [if_pos h, if_pos h, length_flatMap_ite]
  · rw [if_neg h, if_neg h]
    rfl

lemma mainResults_length (fs isdir : String → Bool)
    (runner : List String → ExecOutcome) (win : Bool) :
    (mainResults fs isdir runner win).length = scenarioCount fs isdir win := by
  rw [mainResults, List.length_append, List.length_append, List.length_append,
    rbLoop1_length, scenarioCount, rbLoop2, rbLoop3, rbLoop4]
  by_cases h2 : warpPreflight fs isdir win <;>
  by_cases h4 : (fs cudaConfig.exePath &&
      (fs CUDA_NWORLD_MODEL_BASE_PATH && isdir CUDA_NWORLD_MODEL_BASE_PATH)) = true <;>
  simp [h2, h4, length_flatMap_ite, sum_map_length_ite]

/-- C1: for every filesystem state and every execution behaviour, the
results list of run_benchmark.py main holds exactly one row per enabled
(engine, scenario) pair enumerated by the parameter matrix; the count is
independent of the runner, hence of how many scenarios fail. -/
theorem C1_row_cardinality :
    ∀ (fs isdir : String → Bool) (runner : List String → ExecOutcome)
      (platformWin : Bool),
      (mainResults fs isdir runner platformWin).length =
        scenarioCount fs isdir platformWin :=
  fun fs isdir runner win => mainResults_length fs isdir runner win

/-- C5: when the subprocess of an exe ModelScaling scenario times out, the
row records error Timeout, all identity fields (category, engine, model
type, humanoid count, world count, model file), and no metric keys at
all. -/
theorem C5_timeout_row :
    ∀ (runner : List String → ExecOutcome) (platformWin : Bool) (cfg : ExeConfig)
      (humanoidCount : ℕ) (modelFile : String),
      runner [cfg.exePath, pathJoin platformWin cfg.modelBasePath modelFile,
        toString DEFAULT_STEPS] = .timedOut →
      exeScenarioRow runner platformWin cfg humanoidCount modelFile =
        [("error", .str "Timeout"),
         ("TestCategory", .str "ModelScaling"),
         ("Engine", .str cfg.engineName),
         ("ModelType", .str cfg.modelType),
         ("Humanoids", .int (humanoidCount : ℤ)),
         ("Worlds", .int 1),
         ("ModelFile", .str modelFile)] := by
  intro runner win cfg hc mf h
  show addContext
    (classifyAndParse
      (runner [cfg.exePath, pathJoin win cfg.modelBasePath mf, toString DEFAULT_STEPS])
      "exe")
    "ModelScaling" cfg.engineName cfg.modelType (hc : ℤ) 1 mf = _
  rw [h]
  rfl

/-- Witness for C5 at a concrete scenario of the cuda engine. -/
theorem C5_timeout_row_witness :
    exeScenarioRow (fun _ => .timedOut) true cudaConfig 1 "humanoid.xml" =
      [("error", .str "Timeout"),
       ("TestCategory", .str "ModelScaling"),
       ("Engine", .str "cuda_mujoco"),
       ("ModelType", .str "default"),
       ("Humanoids", .int 1),
       ("Worlds", .int 1),
       ("ModelFile", .str "humanoid.xml")] :=
  (C5_timeout_row (fun _ => .timedOut) true cudaConfig 1 "humanoid.xml" rfl).trans rfl

/-- C7 counterexample: a failing run whose stderr holds 600 characters is
stored on the row in full, not truncated to any bound (the only
truncation in the program, 500 characters, applies to console logging
only). -/
theorem C7_counterexample :
    getVal (exeScenarioRow (fun _ => .completed 1 "" (String.mk (List.replicate 600 'z')))
      true cudaConfig 1 "humanoid.xml") "stderr" =
      some (.str (String.mk (List.replicate 600 'z'))) ∧
    (String.mk (List.replicate 600 'z')).length = 600 := by
  constructor
  · rfl
  · have h : (String.mk (List.replicate 600 'z')).length =
        (List.replicate 600 'z').length := rfl
    rw [h, List.length_replicate]

/-- C7 amended: a non-zero return code yields a row with error kind
ReturnCode_NonZero and a diagnostic holding the entire captured stderr,
untruncated; the driver loop still proceeds, recording every remaining
scenario (row count unchanged). -/
theorem C7_nonzero_exit :
    (∀ (runner : List String → ExecOutcome) (command : List String)
       (engineName modelId parserType : String) (platformWin : Bool)
       (rc : ℤ) (out err : String),
       runner (effectiveCommand false platformWin command) = .completed rc out err →
       rc ≠ 0 →
       run_command_and_parse runner command engineName modelId false parserType
         platformWin =
         [("error", .str "ReturnCode_NonZero"), ("stderr", .str err)]) ∧
    (∀ (fs isdir : String → Bool) (runner : List String → ExecOutcome)
       (platformWin : Bool),
       (mainResults fs isdir runner platformWin).length =
         scenarioCount fs isdir platformWin) := by
  constructor
  · intro runner cmd en mid pt win rc out err h hrc
    show classifyAndParse (runner (effectiveCommand false win cmd)) pt = _
    rw [h]
    simp only [classifyAndParse]
    rw [if_pos hrc]
  · exact mainResults_length

/-- Witness for C7 at a concrete failing run. -/
theorem C7_nonzero_exit_witness :
    run_command_and_parse (fun _ => .completed 1 "" "boom") ["cmd"] "e" "m" false
      "exe" true = [("error", .str "ReturnCode_NonZero"), ("stderr", .str "boom")] :=
  C7_nonzero_exit.1 (fun _ => .completed 1 "" "boom") ["cmd"] "e" "m" "exe" true
    1 "" "boom" rfl (by decide)

/-- C10: the cuda_mujoco WorldScaling sweep resolves world count 1 to
humanoid.xml and any larger count N to N_humanoid.xml, singular, with no
trailing s. -/
theorem C10_cuda_model_file :
    cuda_nworld_model_file 1 = "humanoid.xml" ∧
    (∀ n : ℕ, 1 < n → cuda_nworld_model_file n = toString n ++ "_humanoid.xml") ∧
    cuda_nworld_model_file 4 = "4_humanoid.xml" := by
  refine ⟨rfl, ?_, rfl⟩
  intro n h
  rw [cuda_nworld_model_file, if_neg (by omega)]

/-- C2 counterexample: in a commandbuffer run with all paths present and a
clean starting environment, the 25th invocation (the first mujoco_warp
scenario) runs with CUDA_SCALE_LAUNCH_QUEUES still set to the stale
value 4x left behind by the cuda batches, contradicting the claim that
no later scenario of a different engine observes a stale override. -/
theorem C2_counterexample :
    (((cbTrace fsAll runnerTrivial true none).map
        (fun i => (i.engineName, i.env))).drop 24).take 1 =
      [("mujoco_warp", some "4x")] := by
  rfl

/-- C2 amended: the override is assigned immediately before each cuda
batch, and every cuda invocation observes the scale of its batch; but it
is never restored or cleared, so it persists in the process environment
and all eleven subsequent mujoco_warp invocations run with the stale
value 4x, whatever the runner behaviour and the initial environment. -/
theorem C2_env_override_trace :
    ∀ (runner : List String → Option String → ExecOutcome) (env0 : Option String),
      ((cbTrace fsAll runner true env0).map (fun i => (i.engineName, i.env))) =
        List.replicate 6 ("mujoco (dense)", env0) ++
        List.replicate 6 ("mujoco (sparse)", env0) ++
        List.replicate 6 ("cuda_mujoco (default)", some "1x") ++
        List.replicate 6 ("cuda_mujoco (default)", some "4x") ++
        List.replicate 11 ("mujoco_warp", some "4x") ++
        List.replicate 5 ("cuda_mujoco", some "1x") ++
        List.replicate 5 ("cuda_mujoco", some "4x") := by
  intro runner env0
  rfl

instance decEqExceptParse : DecidableEq (Except String (List (String × ℚ))) :=
  fun a b =>
  match a, b with
  | .ok x, .ok y =>
      if h : x = y then isTrue (by rw [h])
      else isFalse (by intro e; cases e; exact h rfl)
  | .error x, .error y =>
      if h : x = y then isTrue (by rw [h])
      else isFalse (by intro e; cases e; exact h rfl)
  | .ok _, .error _ => isFalse (by intro e; cases e)
  | .error _, .ok _ => isFalse (by intro e; cases e)

instance decEqExceptParseOpt : DecidableEq (Except String (List (String × Option ℚ))) :=
  fun a b =>
  match a, b with
  | .ok x, .ok y =>
      if h : x = y then isTrue (by rw [h])
      else isFalse (by intro e; cases e; exact h rfl)
  | .error x, .error y =>
      if h : x = y then isTrue (by rw [h])
      else isFalse (by intro e; cases e; exact h rfl)
  | .ok _, .error _ => isFalse (by intro e; cases e)
  | .error _, .ok _ => isFalse (by intro e; cases e)

/-- A captured stdout in which only a profiler line appears: no scalar
metric of the exe dialect matches it. -/
def profOnlyText : String := "step : 5.0 (33%)"

unseal Rat.add Rat.mul Rat.inv Rat.ofScientific in
/-- C3 counterexample: on output where zero scalar metrics match but one
profiler metric does, the parsed record is non-empty, so the scenario is
treated as a success — no Parsing_Failed error appears on the row,
contradicting the claim that zero scalar matches imply ParsingFailed. -/
theorem C3_counterexample :
    parse_exe_output profOnlyText = .ok [("Profiler_step_us", 5)] ∧
    (exeSimpleRules.all (fun ρ => (scanAll ρ.2 profOnlyText.data).isNone)) = true ∧
    run_command_and_parse (fun _ => .completed 0 profOnlyText "") ["c"] "e" "m"
      false "exe" true = [("Profiler_step_us", .num 5)] :=
  ⟨by decide, by decide, by decide⟩

/-- C3 amended: the Parsing_Failed classification fires exactly when the
whole parsed record — scalar and profiler metrics together — is empty, in
which case the raw stdout is attached as the diagnostic; when at least
one metric of either kind matched, the row is a success row and metrics
that are merely absent are not an error. -/
theorem C3_parsing_failed :
    ∀ (runner : List String → ExecOutcome) (command : List String)
      (engineName modelId parserType : String) (platformWin : Bool)
      (out err : String) (r : List (String × ℚ)),
      runner (effectiveCommand false platformWin command) = .completed 0 out err →
      (if parserType = "warp" then parse_warp_output out
       else parse_exe_output out) = .ok r →
      run_command_and_parse runner command engineName modelId false parserType
        platformWin =
        (if r = [] then [("error", .str "Parsing_Failed"), ("stdout", .str out)]
         else r.map (fun p => (p.1, Value.num p.2))) := by
  intro runner cmd en mid pt win out err r h hp
  show classifyAndParse (runner (effectiveCommand false win cmd)) pt = _
  rw [h]
  simp only [classifyAndParse]
  rw [if_neg (fun hh : (0 : ℤ) ≠ 0 => hh rfl)]
  cases r with
  | nil => simp [hp]
  | cons a t => simp [hp]

unseal Rat.add Rat.mul Rat.inv Rat.ofScientific in
/-- Witness for C3 at a metric-free output and at an output with one
matching metric. -/
theorem C3_parsing_failed_witness :
    run_command_and_parse (fun _ => .completed 0 "no metrics here" "") ["c"] "e"
      "m" false "exe" true =
      [("error", .str "Parsing_Failed"), ("stdout", .str "no metrics here")] ∧
    run_command_and_parse (fun _ => .completed 0 "Degrees of freedom : 27" "")
      ["c"] "e" "m" false "exe" true = [("DOF", .num 27)] := by
  constructor
  · have h := C3_parsing_failed (fun _ => .completed 0 "no metrics here" "")
      ["c"] "e" "m" "exe" true "no metrics here" "" [] rfl (by decide)
    simpa using h
  · have h := C3_parsing_failed (fun _ => .completed 0 "Degrees of freedom : 27" "")
      ["c"] "e" "m" "exe" true "Degrees of freedom : 27" "" [("DOF", 27)] rfl
      (by decide)
    simpa using h

/-- A well-formed sample of the warp (shell-wrapped) dialect, with a
thousands separator, a nanosecond scalar, and an event-trace section. -/
def warpSampleText : String :=
  "Total simulation time: 2.5 s\nTotal steps per second: 4,000\nTotal realtime factor: 8.0 x\nTotal time per step: 1200.0 ns\nEvent trace:\n  step : 3000.0\n  solve : 500.0\n"

unseal Rat.add Rat.mul Rat.inv Rat.ofScientific in
/-- C4: on the warp dialect, the line Total time per step: 1200.0 ns is
converted to microseconds at parse time, yielding TimePerStep_us = 1.2;
every matched profiler phase (here step = 3000.0 and solve = 500.0,
stored under the canonical constraint phase) is likewise divided
by 1000. -/
theorem C4_warp_unit_conversion :
    parse_warp_output warpSampleText =
      .ok [("SimulationTime_s", (2.5 : ℚ)), ("StepsPerSecond", 4000),
           ("RealtimeFactor", 8), ("TimePerStep_us", (1.2 : ℚ)),
           ("Profiler_step_us", 3), ("Profiler_constraint_us", (0.5 : ℚ))] := by
  decide

/-- Sample direct-exec output whose Time per step unit is spelled with the
MICRO SIGN character, as in the claim. -/
def exeMicroSignText : String :=
  "Simulation time : 12.3 s\nTime per step : 45.6 " ++ String.mk [muMicro, 's'] ++ "\n"

/-- Same sample with the GREEK SMALL LETTER MU spelling, the character
the source regex actually accepts. -/
def exeGreekMuText : String :=
  "Simulation time : 12.3 s\nTime per step : 45.6 " ++ String.mk [muGreek, 's'] ++ "\n"

/-- Same sample with the mis-encoded question-mark spelling. -/
def exeQmarkText : String :=
  "Simulation time : 12.3 s\nTime per step : 45.6 ?s\n"

/-- Same sample with the plain ascii spelling. -/
def exeUsText : String :=
  "Simulation time : 12.3 s\nTime per step : 45.6 us\n"

unseal Rat.add Rat.mul Rat.inv Rat.ofScientific in
/-- C6 counterexample: on stdout containing Simulation time : 12.3 s and
Time per step : 45.6 µs with µ the MICRO SIGN (U+00B5), the parse yields
only SimulationTime_s; TimePerStep_us is absent, because the regex
alternation accepts the question mark, GREEK SMALL LETTER MU (U+03BC),
or the ascii us — not the MICRO SIGN the claim uses. -/
theorem C6_counterexample :
    parse_exe_output exeMicroSignText = .ok [("SimulationTime_s", (12.3 : ℚ))] := by
  decide

unseal Rat.add Rat.mul Rat.inv Rat.ofScientific in
/-- C6 amended: with the micro unit spelled as GREEK SMALL LETTER MU, as
a question mark (the mis-encoded spelling the pattern tolerates), or as
ascii us, the same stdout parses to SimulationTime_s = 12.3 and
TimePerStep_us = 45.6. -/
theorem C6_time_per_step :
    parse_exe_output exeGreekMuText =
      .ok [("SimulationTime_s", (12.3 : ℚ)), ("TimePerStep_us", (45.6 : ℚ))] ∧
    parse_exe_output exeQmarkText =
      .ok [("SimulationTime_s", (12.3 : ℚ)), ("TimePerStep_us", (45.6 : ℚ))] ∧
    parse_exe_output exeUsText =
      .ok [("SimulationTime_s", (12.3 : ℚ)), ("TimePerStep_us", (45.6 : ℚ))] :=
  ⟨by decide, by decide, by decide⟩

/-- A warp-dialect line whose value carries a thousands separator. -/
def warpCommaText : String := "Total steps per second: 1,234.5"

unseal Rat.add Rat.mul Rat.inv Rat.ofScientific in
/-- C8: in the warp dialect every scalar metric value is the float
reading of the matched string with thousands separators stripped first
(with the canonical-name-specific ns conversion applied at the same
point and nowhere else); a concrete separated value parses exactly; and
the downstream row construction copies metric values unchanged, so the
conversion is never re-applied. -/
theorem C8_thousands_separators :
    (∀ (t : String) (r : List (String × ℚ)) (n : String) (pat : List Atom),
       parse_warp_output t = .ok r →
       (n, pat) ∈ warpSimpleRules →
       getVal r (wkey n) =
         (scanAll pat t.data).bind
           (fun g => (pyFloatQ (stripCommas g)).map (wval n))) ∧
    parse_warp_output warpCommaText = .ok [("StepsPerSecond", (1234.5 : ℚ))] ∧
    (∀ (r : List (String × ℚ)) (cat en mt : String) (hum w : ℤ) (mf k : String)
       (v : ℚ),
       getVal r k = some v →
       k ∉ ["TestCategory", "Engine", "ModelType", "Humanoids", "Worlds",
            "ModelFile"] →
       getVal (addContext (r.map (fun p => (p.1, Value.num p.2))) cat en mt hum w mf)
         k = some (.num v)) := by
  refine ⟨?_, by decide, ?_⟩
  · intro t r n pat h hmem
    rw [parse_warp_output] at h
    cases h1 : foldRules wkey wval stripCommas scanAll warpSimpleRules t.data with
    | error e =>
        simp only [h1] at h
        exact Except.noConfusion h
    | ok a =>
        simp only [h1] at h
        have ha := foldRules_ok_lookup wkey wval stripCommas scanAll warpSimpleRules
          t.data a h1 (by decide) n pat hmem
        cases h2 : findAfter ("Event trace:".data) t.data with
        | none =>
            simp only [h2] at h
            cases h
            exact ha
        | some rest =>
            simp only [h2] at h
            cases h3 : foldRules (fun n => n) (fun _ v => v / 1000) (fun g => g)
                scanLineStart warpProfRules rest with
            | error e =>
                simp only [h3] at h
                exact Except.noConfusion h
            | ok b =>
                simp only [h3] at h
                cases h
                cases hga : getVal a (wkey n) with
                | some v =>
                    rw [hga] at ha
                    rw [getVal_append, hga]
                    exact ha
                | none =>
                    rw [hga] at ha
                    rw [getVal_append, hga]
                    show getVal b (wkey n) = _
                    rw [← ha]
                    apply getVal_eq_none
                    rw [foldRules_ok_keys _ _ _ _ _ _ _ h3]
                    intro hc
                    have hn : wkey n ∈ warpSimpleRules.map (fun ρ => wkey ρ.1) :=
                      List.mem_map_of_mem _ hmem
                    have hdisj : ∀ x ∈ warpSimpleRules.map (fun ρ => wkey ρ.1),
                        x ∉ warpProfRules.map (fun ρ => ρ.1) := by decide
                    obtain ⟨ρ, hρ, he⟩ := List.mem_map.mp hc
                    exact hdisj _ hn
                      (he ▸ List.mem_map_of_mem _ (List.mem_of_mem_filter hρ))
  · intro r cat en mt hum w mf k v hv hnot
    simp only [List.mem_cons, List.not_mem_nil, or_false, not_or] at hnot
    obtain ⟨n1, n2, n3, n4, n5, n6⟩ := hnot
    rw [addContext, getVal_setKey_ne _ _ _ _ n6, getVal_setKey_ne _ _ _ _ n5,
      getVal_setKey_ne _ _ _ _ n4, getVal_setKey_ne _ _ _ _ n3,
      getVal_setKey_ne _ _ _ _ n2, getVal_setKey_ne _ _ _ _ n1,
      getVal_map_num, hv]
    rfl

/-- Witness for C8: the separator-stripping equation instantiated at the
StepsPerSecond rule on the comma sample, and the downstream
pass-through instantiated on the resulting record. -/
theorem C8_thousands_separators_witness :
    getVal [("StepsPerSecond", (1234.5 : ℚ))] "StepsPerSecond" =
      (scanAll
          [.lit "Total steps per second".data, .sp false, .lit [':'], .sp false,
           .grp isNumCommaChar] warpCommaText.data).bind
        (fun g => (pyFloatQ (stripCommas g)).map (wval "StepsPerSecond")) ∧
    getVal
      (addContext ([("StepsPerSecond", (1234.5 : ℚ))].map
        (fun p => (p.1, Value.num p.2))) "ModelScaling" "mujoco_warp" "default"
        1 1 "humanoid.xml") "StepsPerSecond" = some (.num (1234.5 : ℚ)) :=
  ⟨C8_thousands_separators.1 warpCommaText [("StepsPerSecond", (1234.5 : ℚ))]
      "StepsPerSecond"
      [.lit "Total steps per second".data, .sp false, .lit [':'], .sp false,
       .grp isNumCommaChar]
      C8_thousands_separators.2.1
      (List.mem_cons_of_mem _ (List.mem_cons_self _ _)),
    C8_thousands_separators.2.2 [("StepsPerSecond", (1234.5 : ℚ))] "ModelScaling"
      "mujoco_warp" "default" 1 1 "humanoid.xml" "StepsPerSecond" (1234.5 : ℚ)
      rfl (by decide)⟩

/-- C9 counterexample: the linux-variant parse_output returns a record
that contains all four canonical keys even on empty input where no
pattern matched; an unmatched key is present and mapped to None rather
than absent, contradicting the claim that a non-matching pattern leaves
its key absent for every dialect. -/
theorem C9_counterexample :
    parse_output "mujoco" "" =
      .ok [("Simulation Time (s)", none), ("SPS", none), ("RTF", none),
           (timePerStepUsKeyLinux, none)] ∧
    (linuxPatterns "mujoco").all (fun ρ => (scanAll ρ.2 "".data).isNone) = true :=
  ⟨by decide, by decide⟩

/-- C9 amended: for the exe dialect a key is present in the parsed record
exactly when its pattern matched (in rule order, scalars then profiler
phases), and absent data is never represented by a placeholder value;
the linux-variant parse_output instead always carries its four canonical
keys, pre-set to None (a not-available marker, never a numeric zero)
and overwritten only by matches. -/
theorem C9_keys_iff_matched :
    (∀ (t : String) (r : List (String × ℚ)),
       parse_exe_output t = .ok r →
       r.map Prod.fst =
         (exeSimpleRules.filter (fun ρ => (scanAll ρ.2 t.data).isSome)).map
            (fun ρ => ρ.1) ++
         (exeProfRules.filter (fun ρ => (scanLineStart ρ.2 t.data).isSome)).map
            (fun ρ => ρ.1)) ∧
    (∀ (engine t : String) (r : List (String × Option ℚ)),
       parse_output engine t = .ok r →
       r.map Prod.fst =
         ["Simulation Time (s)", "SPS", "RTF", timePerStepUsKeyLinux]) := by
  constructor
  · intro t r h
    rw [parse_exe_output] at h
    cases h1 : foldRules (fun n => n) (fun _ v => v) (fun g => g) scanAll
        exeSimpleRules t.data with
    | error e =>
        simp only [h1] at h
        exact Except.noConfusion h
    | ok a =>
        simp only [h1] at h
        cases h2 : foldRules (fun n => n) (fun _ v => v) (fun g => g) scanLineStart
            exeProfRules t.data with
        | error e =>
            simp only [h2] at h
            exact Except.noConfusion h
        | ok b =>
            simp only [h2] at h
            cases h
            have k1 := foldRules_ok_keys _ _ _ _ _ _ _ h1
            have k2 := foldRules_ok_keys _ _ _ _ _ _ _ h2
            simp only [List.map_append, k1, k2]
  · intro engine t r h
    rw [parse_output] at h
    have hkeys := linuxGo_keys (linuxPatterns engine) linuxInitData t.data r h ?_
    · rw [hkeys]
      decide
    · intro ρ hρ
      have hkey : ∀ key ∈ (linuxPatterns engine).map Prod.fst,
          (if key = "Time per Step (ns)" then timePerStepUsKeyLinux else key) ∈
            linuxInitData.map Prod.fst := by
        rw [linuxPatterns]
        by_cases e1 : engine = "mujoco"
        · rw [if_pos e1]
          decide
        · rw [if_neg e1]
          by_cases e2 : engine = "mjx"
          · rw [if_pos e2]
            decide
          · rw [if_neg e2]
            by_cases e3 : engine = "mujoco_warp"
            · rw [if_pos e3]
              decide
            · rw [if_neg e3]
              by_cases e4 : engine = "cuda_mujoco"
              · rw [if_pos e4]
                decide
              · rw [if_neg e4]
                decide
      exact hkey ρ.1 (List.mem_map_of_mem Prod.fst hρ)

unseal Rat.add Rat.mul Rat.inv Rat.ofScientific in
/-- Witness for C9: the exe-dialect key equation at an output matching
only the DOF rule, and the linux equation at the mjx dialect on empty
input. -/
theorem C9_keys_iff_matched_witness :
    ([("DOF", (27 : ℚ))].map Prod.fst =
      (exeSimpleRules.filter
        (fun ρ => (scanAll ρ.2 "Degrees of freedom : 27".data).isSome)).map
          (fun ρ => ρ.1) ++
      (exeProfRules.filter
        (fun ρ => (scanLineStart ρ.2 "Degrees of freedom : 27".data).isSome)).map
          (fun ρ => ρ.1)) ∧
    (linuxInitData.map Prod.fst =
      ["Simulation Time (s)", "SPS", "RTF", timePerStepUsKeyLinux]) :=
  ⟨C9_keys_iff_matched.1 "Degrees of freedom : 27" [("DOF", (27 : ℚ))] (by decide),
   C9_keys_iff_matched.2 "mjx" "" linuxInitData (by decide)⟩

/-- Witness for C10 at world count 16. -/
theorem C10_cuda_model_file_witness :
    1 < 16 ∧ cuda_nworld_model_file 16 = toString 16 ++ "_humanoid.xml" :=
  ⟨by decide, C10_cuda_model_file.2.1 16 (by decide)⟩

end Benchmark
